import Mathlib

/-!
Verification development for the pokeunlimited-pokedata enrichment pipeline.

The repository's store schema is taken from `POKEDATA_README.md`
(`pokedata_cards` / `pokedata_sets` tables), the coordinator from
`backend/enrich_all_languages.sh` / `backend/enrich_remaining_languages.sh`,
the enrichment marker convention from `backend/check_enrichment_progress.sh`,
and the frontend API service from `frontend/src/services/api.ts`
(the `tcgdexApi` object).  The Python enrichment engine
(`enrich_cards_from_tcgdex.py`, `enrich_pricing_from_tcgdex.py`,
`fix_logo_urls_use_english.py`, `fix_missing_image_urls.py`) is not part of
the source tree here, so those operations are modelled from the
specification's words, as marked in the individual doc comments.
-/

namespace PokeData

/-- An ability entry `{name, text, type}` as stored in the `abilities` JSONB
column (spec §3). -/
structure Ability where
  name : String
  text : String
  type : String
deriving DecidableEq, Repr

/-- An attack entry `{name, cost, damage, text}` as stored in the `attacks`
JSONB column (spec §3). -/
structure Attack where
  name : String
  cost : List String
  damage : Option String
  text : Option String
deriving DecidableEq, Repr

/-- A weakness/resistance entry `{type, modifier}` (spec §3). -/
structure TypeModifier where
  type : String
  value : String
deriving DecidableEq, Repr

/-- A Card row of the `pokedata_cards` table (schema from
`POKEDATA_README.md` plus the columns of
`backend/migrations/add_extended_card_fields.sql`).  Identity is
`(tcgdex_id, language)`; nullable SQL columns are `Option`s.
The `attempted_no_data` flag is modelled from the spec: §4.2 requires an
"enrichment attempted, no data" state distinct from "never attempted" for
rows whose upstream lookup returned not-found. -/
structure Card where
  tcgdex_id : String
  language : String
  name : String
  set_id : String
  local_id : Option String := none
  category : Option String := none
  rarity : Option String := none
  illustrator : Option String := none
  hp : Option Nat := none
  types : Option (List String) := none
  stage : Option String := none
  evolves_from : Option String := none
  retreat_cost : Option Nat := none
  regulation_mark : Option String := none
  abilities : Option (List Ability) := none
  attacks : Option (List Attack) := none
  weaknesses : Option (List TypeModifier) := none
  resistances : Option (List TypeModifier) := none
  image_url : Option String := none
  attempted_no_data : Bool := false
  ebay_avg_price : Option Int := none
  ebay_median_price : Option Int := none
  ebay_low_price : Option Int := none
  ebay_high_price : Option Int := none
  ebay_sold_count_30d : Option Nat := none
  ebay_active_listings : Option Nat := none
  market_price : Option Int := none
  last_ebay_update : Option Nat := none
  is_priced : Bool := false
deriving DecidableEq, Repr

/-- A Set row of the `pokedata_sets` table (`POKEDATA_README.md`). -/
structure PokeSet where
  tcgdex_id : String
  language : String
  name : String
  logo_url : Option String := none
  symbol_url : Option String := none
deriving DecidableEq, Repr

/-- Upstream card detail returned by the catalog API on success.
Modelled from the spec: §4.1/§4.2 list the extended fields merged in by the
Enrichment Engine; `category` is the field every upstream detail record
carries and which serves as the enrichment marker (glossary). -/
structure CardDetail where
  category : String
  rarity : Option String := none
  illustrator : Option String := none
  hp : Option Nat := none
  types : Option (List String) := none
  stage : Option String := none
  evolves_from : Option String := none
  retreat_cost : Option Nat := none
  regulation_mark : Option String := none
  abilities : Option (List Ability) := none
  attacks : Option (List Attack) := none
  weaknesses : Option (List TypeModifier) := none
  resistances : Option (List TypeModifier) := none
  image_url : Option String := none
deriving DecidableEq, Repr

/-- Tri-state outcome of a rate-limited upstream fetch (spec §4.1, §7):
success, definitive not-found sentinel, or transient failure after retries
were exhausted. -/
inductive FetchResult where
  | Found (d : CardDetail)
  | NotFound
  | FetchFailed
deriving DecidableEq, Repr

/-- SQL `COALESCE(old, new)`: keep the stored value when it is non-null,
otherwise take the newly fetched one (`DAILY_SUMMARY_2025-10-23.md`,
"Added COALESCE logic to preserve existing data while updating NULL
values"). -/
def coalesce {α : Type} (old upd : Option α) : Option α :=
  match old with
  | some v => some v
  | none => upd

/-- Fill-missing merge of upstream detail into a card row.
Modelled from the spec: §4.2 "merge extended fields using fill-missing
semantics (§3) including image_url"; every catalog field is COALESCEd,
identity and pricing fields are untouched. -/
def mergeCard (c : Card) (d : CardDetail) : Card :=
  { c with
    category := coalesce c.category (some d.category)
    rarity := coalesce c.rarity d.rarity
    illustrator := coalesce c.illustrator d.illustrator
    hp := coalesce c.hp d.hp
    types := coalesce c.types d.types
    stage := coalesce c.stage d.stage
    evolves_from := coalesce c.evolves_from d.evolves_from
    retreat_cost := coalesce c.retreat_cost d.retreat_cost
    regulation_mark := coalesce c.regulation_mark d.regulation_mark
    abilities := coalesce c.abilities d.abilities
    attacks := coalesce c.attacks d.attacks
    weaknesses := coalesce c.weaknesses d.weaknesses
    resistances := coalesce c.resistances d.resistances
    image_url := coalesce c.image_url d.image_url }

/-- Record "enrichment attempted, no data" on a row (spec §4.2, on
`NotFound`). -/
def markAttempted (c : Card) : Card :=
  { c with attempted_no_data := true }

/-- Candidate selection of the Enrichment Engine.  Modelled from the spec:
§4.2 "select all Card rows for `language` still missing an enrichment
marker field (e.g., category is null)", excluding rows already marked
"enrichment attempted, no data". -/
def isCandidate (lang : String) (c : Card) : Bool :=
  c.language == lang && c.category.isNone && !c.attempted_no_data

/-- Per-run counters reported by the engines (spec §4.2/§6: processed /
enriched / not-found / failed). -/
structure Report where
  processed : Nat
  enriched : Nat
  not_found : Nat
  failed : Nat
deriving DecidableEq, Repr

def Report.zero : Report := ⟨0, 0, 0, 0⟩

def Report.add (a b : Report) : Report :=
  ⟨a.processed + b.processed, a.enriched + b.enriched,
   a.not_found + b.not_found, a.failed + b.failed⟩

/-- The action of one `enrichLanguage` run on a single row.  Modelled from
the spec (§4.2): a candidate row is fetched; on `Found` the detail is
merged fill-missing, on `NotFound` the row is marked attempted-no-data, on
`FetchFailed` the row is left untouched; non-candidates are not touched at
all. -/
def enrichRow (u : String → FetchResult) (lang : String) (c : Card) : Card :=
  if isCandidate lang c then
    match u c.tcgdex_id with
    | FetchResult.Found d => mergeCard c d
    | FetchResult.NotFound => markAttempted c
    | FetchResult.FetchFailed => c
  else c

/-- The report contribution of a single row in an `enrichLanguage` run
(spec §4.2): each candidate counts as processed and as exactly one of
enriched / not-found / failed. -/
def rowReport (u : String → FetchResult) (lang : String) (c : Card) : Report :=
  if isCandidate lang c then
    match u c.tcgdex_id with
    | FetchResult.Found _ => ⟨1, 1, 0, 0⟩
    | FetchResult.NotFound => ⟨1, 0, 1, 0⟩
    | FetchResult.FetchFailed => ⟨1, 0, 0, 1⟩
  else Report.zero

/-- Total report of a run over a store. -/
def runReport (u : String → FetchResult) (lang : String) : List Card → Report
  | [] => Report.zero
  | c :: cs => Report.add (rowReport u lang c) (runReport u lang cs)

/-- One `enrichLanguage` run over the whole store.  Modelled from the spec
(§4.2): the sequential batch loop over candidate rows; batching and the
inter-call delay only pace the loop, so the run is flattened to its row
sequence.  Returns the written-back store and the run report. -/
def enrichLanguage (u : String → FetchResult) (lang : String) :
    List Card → List Card × Report
  | [] => ([], Report.zero)
  | c :: cs =>
    let rest := enrichLanguage u lang cs
    (enrichRow u lang c :: rest.1, Report.add (rowReport u lang c) rest.2)

/-- A marketplace pricing snapshot (the eBay pricing columns of
`pokedata_cards` in `POKEDATA_README.md`). -/
structure PricingSnapshot where
  ebay_avg_price : Option Int := none
  ebay_median_price : Option Int := none
  ebay_low_price : Option Int := none
  ebay_high_price : Option Int := none
  ebay_sold_count_30d : Option Nat := none
  ebay_active_listings : Option Nat := none
  market_price : Option Int := none
deriving DecidableEq, Repr

/-- Tri-state outcome of a marketplace pricing fetch (spec §6: same
success / not-found / transient-failure contract as the catalog API). -/
inductive PricingResult where
  | Found (p : PricingSnapshot)
  | NotFound
  | FetchFailed
deriving DecidableEq, Repr

/-- Rows eligible for re-pricing.  Modelled from the spec: §4.3 "select
rows eligible for re-pricing — typically all enriched rows" for the given
language. -/
def pricingEligible (lang : String) (c : Card) : Bool :=
  c.language == lang && c.category.isSome

/-- Replace-merge of a pricing snapshot into a card row.  Modelled from
the spec: §3 "Pricing fields are fully replaced on each pricing run … and
stamped with a last-updated timestamp"; every pricing field is overwritten
from the snapshot (including by `none`), the timestamp is set to the run
time, and no catalog or identity field is touched. -/
def replacePricing (c : Card) (p : PricingSnapshot) (now : Nat) : Card :=
  { c with
    ebay_avg_price := p.ebay_avg_price
    ebay_median_price := p.ebay_median_price
    ebay_low_price := p.ebay_low_price
    ebay_high_price := p.ebay_high_price
    ebay_sold_count_30d := p.ebay_sold_count_30d
    ebay_active_listings := p.ebay_active_listings
    market_price := p.market_price
    last_ebay_update := some now
    is_priced := true }

/-- The action of one `enrichPricing` run on a single row.  Modelled from
the spec (§4.3): same batch/row contract as §4.2, with replace-merge on
success; not-found and transient failures leave the row untouched. -/
def pricingRow (pq : String → PricingResult) (now : Nat) (lang : String)
    (c : Card) : Card :=
  if pricingEligible lang c then
    match pq c.tcgdex_id with
    | PricingResult.Found p => replacePricing c p now
    | PricingResult.NotFound => c
    | PricingResult.FetchFailed => c
  else c

/-- Report contribution of a single row in an `enrichPricing` run. -/
def pricingRowReport (pq : String → PricingResult) (lang : String)
    (c : Card) : Report :=
  if pricingEligible lang c then
    match pq c.tcgdex_id with
    | PricingResult.Found _ => ⟨1, 1, 0, 0⟩
    | PricingResult.NotFound => ⟨1, 0, 1, 0⟩
    | PricingResult.FetchFailed => ⟨1, 0, 0, 1⟩
  else Report.zero

/-- One `enrichPricing` run over the whole store.  Modelled from the spec
(§4.3). -/
def enrichPricing (pq : String → PricingResult) (now : Nat) (lang : String) :
    List Card → List Card × Report
  | [] => ([], Report.zero)
  | c :: cs =>
    let rest := enrichPricing pq now lang cs
    (pricingRow pq now lang c :: rest.1,
     Report.add (pricingRowReport pq lang c) rest.2)

/-- First English-language Set row carrying the given external
identifier. -/
def findEnglishSet (sets : List PokeSet) (tid : String) : Option PokeSet :=
  sets.find? (fun e => e.language == "en" && e.tcgdex_id == tid)

/-- The logo of the English counterpart with the given external
identifier, when that counterpart exists and carries one. -/
def englishLogo (sets : List PokeSet) (tid : String) : Option String :=
  (findEnglishSet sets tid).bind (fun e => e.logo_url)

/-- Asset backfill on a single Set row.  Modelled from the spec (§4.4) and
`DAILY_SUMMARY_2025-10-23.md` (`fix_logo_urls_use_english.py`): a
non-English row with a null logo takes the logo of the English row with
the same external identifier when that exists and is non-null; otherwise,
and for all other rows, nothing changes. -/
def backfillSetRow (sets : List PokeSet) (s : PokeSet) : PokeSet :=
  if s.language ≠ "en" ∧ s.logo_url = none then
    match englishLogo sets s.tcgdex_id with
    | some u => { s with logo_url := some u }
    | none => s
  else s

/-- One `backfillLogos` run: the English-fallback pass over all Set rows
(spec §4.4). -/
def backfillLogos (sets : List PokeSet) : List PokeSet :=
  sets.map (backfillSetRow sets)

/-- First English-language Card row carrying the given external
identifier. -/
def findEnglishCard (cards : List Card) (tid : String) : Option Card :=
  cards.find? (fun e => e.language == "en" && e.tcgdex_id == tid)

/-- The image of the English counterpart with the given external
identifier, when that counterpart exists and carries one. -/
def englishImage (cards : List Card) (tid : String) : Option String :=
  (findEnglishCard cards tid).bind (fun e => e.image_url)

/-- Asset backfill on a single Card row.  Modelled from the spec (§4.4)
and `DAILY_SUMMARY_2025-10-23.md` ("English image fallback strategy using
SQL UPDATE with JOIN"): a non-English card with a null image takes the
image of the English card with the same external identifier when that
exists and is non-null. -/
def backfillCardRow (cards : List Card) (c : Card) : Card :=
  if c.language ≠ "en" ∧ c.image_url = none then
    match englishImage cards c.tcgdex_id with
    | some u => { c with image_url := some u }
    | none => c
  else c

/-- One `backfillCardImages` run over all Card rows (spec §4.4). -/
def backfillCardImages (cards : List Card) : List Card :=
  cards.map (backfillCardRow cards)

/-- Result of an engine process run.  Modelled from the spec (§6/§7): the
scan either completes — row-level failures only show up in the report — or
is aborted by a fatal infrastructure failure (`FatalStoreError`). -/
inductive ProcessResult where
  | completed (store : List Card) (report : Report)
  | abortedFatal
deriving Repr

/-- Process exit code.  Modelled from the spec (§6): "exit code 0 on
completion of the scan …, non-zero on fatal infrastructure failure". -/
def exitCode : ProcessResult → Nat
  | ProcessResult.completed _ _ => 0
  | ProcessResult.abortedFatal => 1

/-- One invocation of the enrichment command.  Modelled from the spec
(§7): when the store is reachable the whole scan runs to completion with
row-level failures converted to counters; a `FatalStoreError` aborts the
run. -/
def runEnrichProcess (storeOk : Bool) (u : String → FetchResult)
    (lang : String) (s : List Card) : ProcessResult :=
  if storeOk then
    ProcessResult.completed (enrichLanguage u lang s).1 (enrichLanguage u lang s).2
  else ProcessResult.abortedFatal

/-- Number of candidate rows of a run (the rows the scan must process). -/
def countCandidates (lang : String) (s : List Card) : Nat :=
  (s.filter (isCandidate lang)).length

/-- One invocation of the pricing command.  Modelled from the spec
(§4.3/§7): the pricing engine "shares the same batch/delay/retry/resume
contract as 4.2", so with the store reachable its scan runs to completion
with row-level failures converted to counters, and a `FatalStoreError`
aborts the run. -/
def runPricingProcess (storeOk : Bool) (pq : String → PricingResult)
    (now : Nat) (lang : String) (s : List Card) : ProcessResult :=
  if storeOk then
    ProcessResult.completed (enrichPricing pq now lang s).1 (enrichPricing pq now lang s).2
  else ProcessResult.abortedFatal

/-- Number of rows eligible for re-pricing (the rows a pricing scan must
process). -/
def countPricingEligible (lang : String) (s : List Card) : Nat :=
  (s.filter (pricingEligible lang)).length

/-- Rate-limited client call scheduler.  Modelled from the spec (§4.1/§5):
all outbound calls of one process serialize through the client, which
remembers the previous call instant and delays the next call until at
least `minDelay` after it; `last` is the instant of the previous call (if
any) and `reqs` the instants at which callers hand over requests.  Returns
the instants at which the calls actually go out. -/
def callSchedule (minDelay : Nat) (last : Option Nat) : List Nat → List Nat
  | [] => []
  | r :: rs =>
    let t := match last with
      | none => r
      | some l => max r (l + minDelay)
    t :: callSchedule minDelay (some t) rs

/-- The inter-call delay the coordinator deploys:
`enrich_cards_from_tcgdex.py --delay 0.3` in
`backend/enrich_all_languages.sh`, i.e. 300 milliseconds. -/
def deployedDelayMs : Nat := 300

/-- Identity of a Card row: `UNIQUE(tcgdex_id, language)` in
`POKEDATA_README.md`. -/
def cardKey (c : Card) : String × String := (c.tcgdex_id, c.language)

/-- Identity of a Set row: `UNIQUE(tcgdex_id, language)` in
`POKEDATA_README.md`. -/
def setKey (s : PokeSet) : String × String := (s.tcgdex_id, s.language)

/-- No two Card rows share both external identifier and language. -/
def UniqueCards (s : List Card) : Prop := (s.map cardKey).Nodup

/-- No two Set rows share both external identifier and language. -/
def UniqueSets (s : List PokeSet) : Prop := (s.map setKey).Nodup

/-- A core operation on the Card store (spec §3 lifecycle: mutated in
place by the Enrichment Engine, the Pricing Engine and the Asset Backfill
Tool). -/
inductive CardOp where
  | enrich (u : String → FetchResult) (lang : String)
  | price (pq : String → PricingResult) (now : Nat) (lang : String)
  | backfillImages

def applyCardOp : CardOp → List Card → List Card
  | CardOp.enrich u lang, s => (enrichLanguage u lang s).1
  | CardOp.price pq now lang, s => (enrichPricing pq now lang s).1
  | CardOp.backfillImages, s => backfillCardImages s

def applyCardOps : List CardOp → List Card → List Card
  | [], s => s
  | op :: ops, s => applyCardOps ops (applyCardOp op s)

/-- A core operation on the Set store. -/
inductive SetOp where
  | backfill

def applySetOp : SetOp → List PokeSet → List PokeSet
  | SetOp.backfill, s => backfillLogos s

def applySetOps : List SetOp → List PokeSet → List PokeSet
  | [], s => s
  | op :: ops, s => applySetOps ops (applySetOp op s)

/-- Fetch-count bookkeeping for the terminality claim: a row is fetched by
a run exactly when the run's candidate selection picks it (spec §4.2),
and each run rewrites the row through its row action. -/
def fetchCount : List ((String → FetchResult) × String) → Card → Nat
  | [], _ => 0
  | r :: rs, c =>
    (if isCandidate r.2 c then 1 else 0) + fetchCount rs (enrichRow r.1 r.2 c)

/-- The fill-missing invariant between a row before and after a run: every
catalog field that is non-null before keeps its exact value after. -/
def CatalogPreserved (old new : Card) : Prop :=
  (∀ v, old.category = some v → new.category = some v) ∧
  (∀ v, old.rarity = some v → new.rarity = some v) ∧
  (∀ v, old.illustrator = some v → new.illustrator = some v) ∧
  (∀ v, old.hp = some v → new.hp = some v) ∧
  (∀ v, old.types = some v → new.types = some v) ∧
  (∀ v, old.stage = some v → new.stage = some v) ∧
  (∀ v, old.evolves_from = some v → new.evolves_from = some v) ∧
  (∀ v, old.retreat_cost = some v → new.retreat_cost = some v) ∧
  (∀ v, old.regulation_mark = some v → new.regulation_mark = some v) ∧
  (∀ v, old.abilities = some v → new.abilities = some v) ∧
  (∀ v, old.attacks = some v → new.attacks = some v) ∧
  (∀ v, old.weaknesses = some v → new.weaknesses = some v) ∧
  (∀ v, old.resistances = some v → new.resistances = some v) ∧
  (∀ v, old.image_url = some v → new.image_url = some v)

/-- Replace semantics between a row before and after a pricing run: when
the row is eligible and the marketplace lookup succeeds, every pricing
field afterwards equals the snapshot's value and the timestamp is the run
time — independently of the previous values. -/
def PricingReplaced (pq : String → PricingResult) (now : Nat) (lang : String)
    (old new : Card) : Prop :=
  pricingEligible lang old = true →
  ∀ p, pq old.tcgdex_id = PricingResult.Found p →
    new.ebay_avg_price = p.ebay_avg_price ∧
    new.ebay_median_price = p.ebay_median_price ∧
    new.ebay_low_price = p.ebay_low_price ∧
    new.ebay_high_price = p.ebay_high_price ∧
    new.ebay_sold_count_30d = p.ebay_sold_count_30d ∧
    new.ebay_active_listings = p.ebay_active_listings ∧
    new.market_price = p.market_price ∧
    new.last_ebay_update = some now ∧
    new.is_priced = true

/-- Backfill semantics between a Set row before and after a
`backfillLogos` run against `sets`: a non-English row with a null logo
receives the English counterpart's non-null logo verbatim; without an
English counterpart the logo stays as it was (null); rows already carrying
a logo are untouched. -/
def LogoBackfilled (sets : List PokeSet) (old new : PokeSet) : Prop :=
  (∀ e u, old.language ≠ "en" → old.logo_url = none →
    findEnglishSet sets old.tcgdex_id = some e → e.logo_url = some u →
    new.logo_url = some u) ∧
  (findEnglishSet sets old.tcgdex_id = none → new.logo_url = old.logo_url) ∧
  (∀ v, old.logo_url = some v → new = old)

/-- Backfill semantics between a Card row before and after a
`backfillCardImages` run against `cards`. -/
def ImageBackfilled (cards : List Card) (old new : Card) : Prop :=
  (∀ e u, old.language ≠ "en" → old.image_url = none →
    findEnglishCard cards old.tcgdex_id = some e → e.image_url = some u →
    new.image_url = some u) ∧
  (findEnglishCard cards old.tcgdex_id = none → new.image_url = old.image_url) ∧
  (∀ v, old.image_url = some v → new = old)

/-- A concrete upstream detail record, used to evaluate the theorems. -/
def sampleDetail : CardDetail :=
  { category := "Pokemon", rarity := some "Rare",
    hp := some 120, image_url := some "https://assets.tcgdex.net/en/base1-4.png" }

/-- A concrete never-enriched German card row. -/
def sampleCard : Card :=
  { tcgdex_id := "base1-4", language := "de", name := "Glurak", set_id := "base1" }

/-- A concrete already-enriched German card row with an old pricing
snapshot. -/
def sampleCard2 : Card :=
  { tcgdex_id := "base1-5", language := "de", name := "Piepi", set_id := "base1",
    category := some "Pokemon", image_url := none,
    ebay_avg_price := some 100, ebay_low_price := some 40,
    last_ebay_update := some 5, is_priced := true }

/-- A concrete enriched English card row with an image. -/
def sampleCardEn : Card :=
  { tcgdex_id := "base1-5", language := "en", name := "Clefairy", set_id := "base1",
    category := some "Pokemon",
    image_url := some "https://assets.tcgdex.net/en/base1-5.png" }

/-- A concrete upstream that finds `sampleDetail` for every identifier. -/
def upstreamFoundSample : String → FetchResult := fun _ => FetchResult.Found sampleDetail

/-- A concrete upstream with no record for any identifier. -/
def upstreamNone : String → FetchResult := fun _ => FetchResult.NotFound

/-- A concrete marketplace oracle returning a sparse snapshot. -/
def pricingFoundSample : String → PricingResult :=
  fun _ => PricingResult.Found { ebay_avg_price := some 250, ebay_low_price := none }

/-- A concrete English Set row with a logo. -/
def sampleSetEn : PokeSet :=
  { tcgdex_id := "base1", language := "en", name := "Base Set", logo_url := some "X" }

/-- A concrete German Set row missing its logo. -/
def sampleSetDe : PokeSet :=
  { tcgdex_id := "base1", language := "de", name := "Basis", logo_url := none }

/-- A concrete Japanese-exclusive Set row (no English counterpart). -/
def sampleSetJa : PokeSet :=
  { tcgdex_id := "pmcg1", language := "ja", name := "PMCG", logo_url := none }

end PokeData

namespace Frontend

/-- Error value thrown by `apiClient.handleResponse`
(frontend/src/services/api.ts, `ApiError`). -/
structure ApiError where
  message : String
  status : Nat
deriving DecidableEq, Repr

/-- A raw set record as returned by `/api/v1/pokedata/sets`
(the fields `tcgdexApi.getSets` reads in frontend/src/services/api.ts). -/
structure RawSet where
  tcgdex_id : String
  name : String
  logo_url : Option String
  symbol_url : Option String
  release_date : Option String
  total_cards : Option Nat
  series_name : Option String
deriving DecidableEq, Repr

/-- A raw card record as returned by `/api/v1/pokedata/cards`
(the fields `tcgdexApi.getSetCards` reads). -/
structure RawCard where
  tcgdex_id : String
  name : String
  image_url : Option String
  local_id : Option String
  illustrator : Option String
  rarity : Option String
  category : Option String
  set_id : String
  set_name : Option String
  hp : Option Nat
  types : Option (List String)
  evolves_from : Option String
  stage : Option String
  retreat_cost : Option Nat
deriving DecidableEq, Repr

/-- The `TCGSet` interface of frontend/src/services/api.ts.  `logo` is
assigned `set.logo_url` with no fallback, so it can be null at runtime and
is an `Option` here; the `x || y` defaults of the other fields agree with
`Option.getD` on these types. -/
structure TCGSet where
  id : String
  name : String
  logo : Option String
  symbol : String
  releaseDate : String
  totalCards : Nat
  series : String
  legalStandard : Bool
  legalExpanded : Bool
deriving DecidableEq, Repr

/-- The `TCGCard` interface fields populated by `tcgdexApi.getSetCards`. -/
structure TCGCard where
  id : String
  name : String
  image : Option String
  localId : String
  illustrator : String
  rarity : String
  category : String
  setId : String
  setName : String
  hp : Option Nat
  types : List String
  evolveFrom : Option String
  stage : Option String
  retreat : Option Nat
  price : Nat
deriving DecidableEq, Repr

/-- The response transformation inside `tcgdexApi.getSets` /
`tcgdexApi.getSetDetails`. -/
def toTCGSet (s : RawSet) : TCGSet :=
  { id := s.tcgdex_id
    name := s.name
    logo := s.logo_url
    symbol := s.symbol_url.getD ""
    releaseDate := s.release_date.getD ""
    totalCards := s.total_cards.getD 0
    series := s.series_name.getD ""
    legalStandard := true
    legalExpanded := true }

/-- The response transformation inside `tcgdexApi.getSetCards`. -/
def toTCGCard (c : RawCard) : TCGCard :=
  { id := c.tcgdex_id
    name := c.name
    image := c.image_url
    localId := c.local_id.getD ""
    illustrator := c.illustrator.getD ""
    rarity := c.rarity.getD ""
    category := c.category.getD ""
    setId := c.set_id
    setName := c.set_name.getD ""
    hp := c.hp
    types := c.types.getD []
    evolveFrom := c.evolves_from
    stage := c.stage
    retreat := c.retreat_cost
    price := 0 }

/-- Embeds `tcgdexApi.getSets`: the whole body is wrapped in try/catch and the
catch branch returns `[]` after logging. -/
def getSets (resp : Except ApiError (List RawSet)) : List TCGSet :=
  match resp with
  | Except.ok sets => sets.map toTCGSet
  | Except.error _ => []

/-- Embeds `tcgdexApi.getSetCards`: the catch branch returns `[]`. -/
def getSetCards (resp : Except ApiError (List RawCard)) : List TCGCard :=
  match resp with
  | Except.ok cards => cards.map toTCGCard
  | Except.error _ => []

/-- Embeds `tcgdexApi.getSetDetails`: the catch branch rethrows the error. -/
def getSetDetails (resp : Except ApiError RawSet) : Except ApiError TCGSet :=
  match resp with
  | Except.ok s => Except.ok (toTCGSet s)
  | Except.error e => Except.error e

end Frontend

namespace Coordinator

/-- Exit statuses of the two commands in the data-enrichment pipeline
`python3 enrich_cards_from_tcgdex.py … 2>&1 | tee …` of
`backend/enrich_all_languages.sh` / `backend/enrich_remaining_languages.sh`. -/
structure PipelineRun where
  pythonExit : Nat
  teeExit : Nat
deriving DecidableEq, Repr

/-- The value `$?` holds right after the pipeline: with `pipefail` unset
(neither script sets it), bash reports the exit status of the last command
of a pipeline, i.e. `tee`'s. -/
def pipelineStatus (p : PipelineRun) : Nat := p.teeExit

/-- The language list of `backend/enrich_all_languages.sh`. -/
def LANGUAGES : List String :=
  ["en", "de", "es", "fr", "it", "ja", "ko", "nl", "pl", "pt_br", "ru",
   "th", "zh_cn", "zh_tw", "id"]

/-- Per-language outcome of one iteration of the coordinator loop. -/
structure LangOutcome where
  lang : String
  dataExitCode : Nat
  pricingRan : Bool
deriving DecidableEq, Repr

/-- One iteration of the `for lang in "${LANGUAGES[@]}"` loop
(`backend/enrich_all_languages.sh` lines 35-75): `DATA_EXIT_CODE=$?` is
captured after the `python | tee` pipeline and the pricing step runs
exactly when `[ $DATA_EXIT_CODE -eq 0 ]`. -/
def processLang (dataStep : String → PipelineRun) (l : String) : LangOutcome :=
  let code := pipelineStatus (dataStep l)
  { lang := l, dataExitCode := code, pricingRan := code == 0 }

/-- The whole coordinator loop: every language is processed regardless of
earlier outcomes (the loop body has no break/exit). -/
def enrichAllLanguages (dataStep : String → PipelineRun) : List LangOutcome :=
  LANGUAGES.map (processLang dataStep)

/-- A concrete scenario: `enrich_cards_from_tcgdex.py` exits 1 for the
`en` run while `tee` (never affected by python's status) exits 0
everywhere. -/
def failingDataStep : String → PipelineRun :=
  fun l => if l == "en" then ⟨1, 0⟩ else ⟨0, 0⟩

end Coordinator

/-! ## Lemmas and claim theorems -/

namespace PokeData

theorem enrichLanguage_fst (u : String → FetchResult) (lang : String)
    (s : List Card) : (enrichLanguage u lang s).1 = s.map (enrichRow u lang) := by
  induction s with
  | nil => rfl
  | cons c cs ih => simp [enrichLanguage, ih]

theorem enrichLanguage_snd (u : String → FetchResult) (lang : String)
    (s : List Card) : (enrichLanguage u lang s).2 = runReport u lang s := by
  induction s with
  | nil => rfl
  | cons c cs ih => simp [enrichLanguage, runReport, ih]

theorem enrichPricing_fst (pq : String → PricingResult) (now : Nat)
    (lang : String) (s : List Card) :
    (enrichPricing pq now lang s).1 = s.map (pricingRow pq now lang) := by
  induction s with
  | nil => rfl
  | cons c cs ih => simp [enrichPricing, ih]

theorem catalogPreserved_refl (c : Card) : CatalogPreserved c c := by
  refine ⟨?_, ?_, ?_, ?_, ?_, ?_, ?_, ?_, ?_, ?_, ?_, ?_, ?_, ?_⟩ <;>
    exact fun v hv => hv

theorem catalogPreserved_mergeCard (c : Card) (d : CardDetail) :
    CatalogPreserved c (mergeCard c d) := by
  refine ⟨?_, ?_, ?_, ?_, ?_, ?_, ?_, ?_, ?_, ?_, ?_, ?_, ?_, ?_⟩ <;>
    (intro v hv; simp [mergeCard, coalesce, hv])

theorem catalogPreserved_markAttempted (c : Card) :
    CatalogPreserved c (markAttempted c) := by
  refine ⟨?_, ?_, ?_, ?_, ?_, ?_, ?_, ?_, ?_, ?_, ?_, ?_, ?_, ?_⟩ <;>
    (intro v hv; simpa [markAttempted] using hv)

theorem catalogPreserved_enrichRow (u : String → FetchResult) (lang : String)
    (c : Card) : CatalogPreserved c (enrichRow u lang c) := by
  unfold enrichRow
  split
  · cases u c.tcgdex_id with
    | Found d => exact catalogPreserved_mergeCard c d
    | NotFound => exact catalogPreserved_markAttempted c
    | FetchFailed => exact catalogPreserved_refl c
  · exact catalogPreserved_refl c

/-- C1. Fill-missing invariant of enrichment: for every Card row (related
positionally to its written-back version) and every catalog field, a field
that is non-null before an `enrichLanguage` run keeps its exact value
after the run, no matter what the upstream returns. -/
theorem enrichLanguage_fill_missing (u : String → FetchResult)
    (lang : String) (s : List Card) :
    List.Forall₂ CatalogPreserved s (enrichLanguage u lang s).1 := by
  rw [enrichLanguage_fst, List.forall₂_map_right_iff]
  exact List.forall₂_same.mpr (fun c _ => catalogPreserved_enrichRow u lang c)

/-- C1, evaluated: the invariant holds of a concrete one-row German store
against an upstream that returns a full detail record. -/
theorem enrichLanguage_fill_missing_witness :
    List.Forall₂ CatalogPreserved [sampleCard2]
      (enrichLanguage upstreamFoundSample "de" [sampleCard2]).1 :=
  enrichLanguage_fill_missing upstreamFoundSample "de" [sampleCard2]

end PokeData

namespace PokeData

theorem isCandidate_mergeCard (lang : String) (c : Card) (d : CardDetail) :
    isCandidate lang (mergeCard c d) =
      (c.language == lang && (coalesce c.category (some d.category)).isNone
        && !c.attempted_no_data) := by
  simp [isCandidate, mergeCard]

theorem enrichRow_of_not_candidate (u : String → FetchResult) (lang : String)
    (c : Card) (h : isCandidate lang c = false) : enrichRow u lang c = c := by
  simp [enrichRow, h]

theorem isCandidate_of_attempted (lang : String) (c : Card)
    (h : c.attempted_no_data = true) : isCandidate lang c = false := by
  simp [isCandidate, h]

theorem rowReport_enrichRow_enriched (u : String → FetchResult)
    (lang : String) (c : Card) :
    (rowReport u lang (enrichRow u lang c)).enriched = 0 := by
  by_cases hc : isCandidate lang c
  · cases hu : u c.tcgdex_id with
    | Found d =>
      have hnone : c.category = none := by
        have hc' := hc
        simp [isCandidate] at hc'
        exact hc'.1.2
      have hcand : isCandidate lang (mergeCard c d) = false := by
        rw [isCandidate_mergeCard, hnone]
        simp [coalesce]
      simp [enrichRow, hc, hu, rowReport, hcand, Report.zero]
    | NotFound =>
      have hcand : isCandidate lang (markAttempted c) = false :=
        isCandidate_of_attempted lang (markAttempted c) rfl
      simp [enrichRow, hc, hu, rowReport, hcand, Report.zero]
    | FetchFailed =>
      simp [enrichRow, hc, hu, rowReport]
  · have hb : isCandidate lang c = false := by simpa using hc
    simp [enrichRow, hb, rowReport, Report.zero]

theorem runReport_map_enriched (u : String → FetchResult) (lang : String)
    (s : List Card) :
    (runReport u lang (s.map (enrichRow u lang))).enriched = 0 := by
  induction s with
  | nil => rfl
  | cons c cs ih =>
    simp only [List.map_cons, runReport, Report.add]
    rw [rowReport_enrichRow_enriched]
    simpa using ih

/-- C2. Idempotence of `enrichLanguage`: a second run right after a first
one, against an unchanged upstream, reports zero newly-enriched rows;
the underlying reason is that any row whose enrichment marker (category)
is non-null is excluded from candidate selection. -/
theorem enrichLanguage_idempotent (u : String → FetchResult) (lang : String)
    (s : List Card) (c : Card) (hmark : c.category.isSome = true) :
    ((enrichLanguage u lang (enrichLanguage u lang s).1).2).enriched = 0 ∧
    isCandidate lang c = false := by
  constructor
  · rw [enrichLanguage_snd, enrichLanguage_fst]
    exact runReport_map_enriched u lang s
  · cases hcat : c.category with
    | none => simp [hcat] at hmark
    | some v => simp [isCandidate, hcat]

/-- C2, evaluated: a concrete two-row German store (one fresh row, one
already-enriched row) rerun against the same upstream. -/
theorem enrichLanguage_idempotent_witness :
    ((enrichLanguage upstreamFoundSample "de"
        (enrichLanguage upstreamFoundSample "de" [sampleCard, sampleCard2]).1).2).enriched = 0 ∧
    isCandidate "de" sampleCard2 = false :=
  enrichLanguage_idempotent upstreamFoundSample "de" [sampleCard, sampleCard2]
    sampleCard2 (by decide)

theorem enrichRow_attempted (u : String → FetchResult) (lang : String)
    (c : Card) (h : c.attempted_no_data = true) : enrichRow u lang c = c :=
  enrichRow_of_not_candidate u lang c (isCandidate_of_attempted lang c h)

theorem fetchCount_attempted (runs : List ((String → FetchResult) × String))
    (c : Card) (h : c.attempted_no_data = true) : fetchCount runs c = 0 := by
  induction runs generalizing c with
  | nil => rfl
  | cons r rs ih =>
    unfold fetchCount
    rw [isCandidate_of_attempted r.2 c h, enrichRow_attempted r.1 r.2 c h]
    simpa using ih c h

/-- C3. Not-found terminality: a candidate row whose upstream lookup
returns `NotFound` is left with the "enrichment attempted, no data" marker
set — a state distinct from "never attempted" (marker was clear before,
category is still null) — and no sequence of subsequent `enrichLanguage`
runs, whatever their upstreams and languages, ever fetches it again. -/
theorem notFound_terminality (u : String → FetchResult) (lang : String)
    (c : Card) (runs : List ((String → FetchResult) × String))
    (hc : isCandidate lang c = true)
    (hnf : u c.tcgdex_id = FetchResult.NotFound) :
    c.attempted_no_data = false ∧
    (enrichRow u lang c).attempted_no_data = true ∧
    (enrichRow u lang c).category = none ∧
    fetchCount runs (enrichRow u lang c) = 0 := by
  have hparts := hc
  simp [isCandidate] at hparts
  have hatt : c.attempted_no_data = false := hparts.2
  have hcat : c.category = none := hparts.1.2
  have hrow : enrichRow u lang c = markAttempted c := by
    simp [enrichRow, hc, hnf]
  refine ⟨hatt, ?_, ?_, ?_⟩
  · rw [hrow]; rfl
  · rw [hrow]; simpa [markAttempted] using hcat
  · rw [hrow]
    exact fetchCount_attempted runs (markAttempted c) rfl

/-- C3, evaluated: a concrete candidate row against an all-not-found
upstream, followed by two further runs with a data-bearing upstream. -/
theorem notFound_terminality_witness :
    sampleCard.attempted_no_data = false ∧
    (enrichRow upstreamNone "de" sampleCard).attempted_no_data = true ∧
    (enrichRow upstreamNone "de" sampleCard).category = none ∧
    fetchCount [(upstreamFoundSample, "de"), (upstreamNone, "de")]
      (enrichRow upstreamNone "de" sampleCard) = 0 :=
  notFound_terminality upstreamNone "de" sampleCard
    [(upstreamFoundSample, "de"), (upstreamNone, "de")] (by decide) rfl

end PokeData

namespace PokeData

theorem pricingReplaced_row (pq : String → PricingResult) (now : Nat)
    (lang : String) (c : Card) :
    PricingReplaced pq now lang c (pricingRow pq now lang c) := by
  intro helig p hp
  simp [pricingRow, helig, hp, replacePricing]

/-- C4. Pricing replace semantics: in an `enrichPricing` run, every
processed row (eligible, marketplace lookup succeeded) has all of its
pricing fields overwritten with the new snapshot — including fields the
snapshot leaves absent — and its last-updated timestamp set to the run
time, whatever the previous values were. -/
theorem enrichPricing_replace (pq : String → PricingResult) (now : Nat)
    (lang : String) (s : List Card) :
    List.Forall₂ (PricingReplaced pq now lang) s (enrichPricing pq now lang s).1 := by
  rw [enrichPricing_fst, List.forall₂_map_right_iff]
  exact List.forall₂_same.mpr (fun c _ => pricingReplaced_row pq now lang c)

/-- C4, evaluated: a concrete store whose enriched row holds an older,
denser snapshot than the incoming one. -/
theorem enrichPricing_replace_witness :
    List.Forall₂ (PricingReplaced pricingFoundSample 42 "de") [sampleCard2]
      (enrichPricing pricingFoundSample 42 "de" [sampleCard2]).1 :=
  enrichPricing_replace pricingFoundSample 42 "de" [sampleCard2]

theorem countCandidates_nil (lang : String) : countCandidates lang [] = 0 := rfl

theorem countCandidates_cons (lang : String) (c : Card) (cs : List Card) :
    countCandidates lang (c :: cs) =
      (if isCandidate lang c then 1 else 0) + countCandidates lang cs := by
  by_cases h : isCandidate lang c <;>
    simp [countCandidates, List.filter_cons, h, Nat.add_comm]

theorem runReport_processed (u : String → FetchResult) (lang : String)
    (s : List Card) :
    (runReport u lang s).processed = countCandidates lang s := by
  induction s with
  | nil => rfl
  | cons c cs ih =>
    rw [countCandidates_cons]
    by_cases h : isCandidate lang c
    · cases hu : u c.tcgdex_id <;>
        simp [runReport, rowReport, h, hu, Report.add, ih]
    · simp [runReport, rowReport, h, Report.add, Report.zero, ih]

theorem runReport_all_failed (lang : String) (s : List Card) :
    (runReport (fun _ => FetchResult.FetchFailed) lang s).failed =
      countCandidates lang s := by
  induction s with
  | nil => rfl
  | cons c cs ih =>
    rw [countCandidates_cons]
    by_cases h : isCandidate lang c
    · simp [runReport, rowReport, h, Report.add, ih]
    · simp [runReport, rowReport, h, Report.add, Report.zero, ih]

theorem countPricingEligible_cons (lang : String) (c : Card) (cs : List Card) :
    countPricingEligible lang (c :: cs) =
      (if pricingEligible lang c then 1 else 0) + countPricingEligible lang cs := by
  by_cases h : pricingEligible lang c <;>
    simp [countPricingEligible, List.filter_cons, h, Nat.add_comm]

theorem enrichPricing_processed (pq : String → PricingResult) (now : Nat)
    (lang : String) (s : List Card) :
    (enrichPricing pq now lang s).2.processed = countPricingEligible lang s := by
  induction s with
  | nil => rfl
  | cons c cs ih =>
    rw [countPricingEligible_cons]
    by_cases h : pricingEligible lang c
    · cases hp : pq c.tcgdex_id <;>
        simp [enrichPricing, pricingRowReport, h, hp, Report.add, ih]
    · simp [enrichPricing, pricingRowReport, h, Report.add, Report.zero, ih]

theorem enrichPricing_all_failed (now : Nat) (lang : String) (s : List Card) :
    (enrichPricing (fun _ => PricingResult.FetchFailed) now lang s).2.failed =
      countPricingEligible lang s := by
  induction s with
  | nil => rfl
  | cons c cs ih =>
    rw [countPricingEligible_cons]
    by_cases h : pricingEligible lang c
    · simp [enrichPricing, pricingRowReport, h, Report.add, ih]
    · simp [enrichPricing, pricingRowReport, h, Report.add, Report.zero, ih]

/-- C6. Row-level failures never abort a run and never change the exit
code, for both engines: with the store reachable, the enrichment process
and the pricing process each exit 0 whatever their upstreams do; every
candidate (resp. pricing-eligible) row is processed and counted no matter
which rows fail; upstreams failing on every single row still yield
completed scans whose reports count each row as failed; only a fatal
store failure yields a non-zero exit. -/
theorem row_failures_reported (u : String → FetchResult)
    (pq : String → PricingResult) (now : Nat) (lang : String)
    (s : List Card) :
    exitCode (runEnrichProcess true u lang s) = 0 ∧
    (enrichLanguage u lang s).2.processed = countCandidates lang s ∧
    (enrichLanguage (fun _ => FetchResult.FetchFailed) lang s).2.failed =
      countCandidates lang s ∧
    exitCode (runEnrichProcess false u lang s) = 1 ∧
    exitCode (runPricingProcess true pq now lang s) = 0 ∧
    (enrichPricing pq now lang s).2.processed = countPricingEligible lang s ∧
    (enrichPricing (fun _ => PricingResult.FetchFailed) now lang s).2.failed =
      countPricingEligible lang s ∧
    exitCode (runPricingProcess false pq now lang s) = 1 := by
  refine ⟨rfl, ?_, ?_, rfl, rfl, ?_, ?_, rfl⟩
  · rw [enrichLanguage_snd]; exact runReport_processed u lang s
  · rw [enrichLanguage_snd]; exact runReport_all_failed lang s
  · exact enrichPricing_processed pq now lang s
  · exact enrichPricing_all_failed now lang s

/-- C6, evaluated: a concrete store with two enrichment candidates of
which one is pricing-eligible. -/
theorem row_failures_reported_witness :
    exitCode (runEnrichProcess true upstreamNone "de" [sampleCard, sampleCard2]) = 0 ∧
    (enrichLanguage upstreamNone "de" [sampleCard, sampleCard2]).2.processed =
      countCandidates "de" [sampleCard, sampleCard2] ∧
    (enrichLanguage (fun _ => FetchResult.FetchFailed) "de"
        [sampleCard, sampleCard2]).2.failed =
      countCandidates "de" [sampleCard, sampleCard2] ∧
    exitCode (runEnrichProcess false upstreamNone "de" [sampleCard, sampleCard2]) = 1 ∧
    exitCode (runPricingProcess true pricingFoundSample 42 "de"
      [sampleCard, sampleCard2]) = 0 ∧
    (enrichPricing pricingFoundSample 42 "de" [sampleCard, sampleCard2]).2.processed =
      countPricingEligible "de" [sampleCard, sampleCard2] ∧
    (enrichPricing (fun _ => PricingResult.FetchFailed) 42 "de"
        [sampleCard, sampleCard2]).2.failed =
      countPricingEligible "de" [sampleCard, sampleCard2] ∧
    exitCode (runPricingProcess false pricingFoundSample 42 "de"
      [sampleCard, sampleCard2]) = 1 :=
  row_failures_reported upstreamNone pricingFoundSample 42 "de"
    [sampleCard, sampleCard2]

end PokeData


namespace PokeData

theorem find?_map_fixed {α : Type} (p : α → Bool) (f : α → α) (l : List α)
    (hf : ∀ x, p (f x) = p x) (hfix : ∀ x, p x = true → f x = x) :
    (l.map f).find? p = l.find? p := by
  induction l with
  | nil => rfl
  | cons a l ih =>
    cases hpa : p a with
    | true =>
      rw [List.map_cons, List.find?_cons_of_pos _ (by rw [hf]; exact hpa),
        List.find?_cons_of_pos _ hpa, hfix a hpa]
    | false =>
      rw [List.map_cons, List.find?_cons_of_neg _ (by simp [hf, hpa]),
        List.find?_cons_of_neg _ (by simp [hpa]), ih]

theorem backfillSetRow_language (sets : List PokeSet) (s : PokeSet) :
    (backfillSetRow sets s).language = s.language := by
  unfold backfillSetRow
  split
  · split <;> rfl
  · rfl

theorem backfillSetRow_tcgdex (sets : List PokeSet) (s : PokeSet) :
    (backfillSetRow sets s).tcgdex_id = s.tcgdex_id := by
  unfold backfillSetRow
  split
  · split <;> rfl
  · rfl

theorem backfillSetRow_english (sets : List PokeSet) (s : PokeSet)
    (h : s.language = "en") : backfillSetRow sets s = s := by
  unfold backfillSetRow
  rw [if_neg]
  intro hc
  exact hc.1 h

theorem backfillSetRow_of_neg (sets : List PokeSet) (s : PokeSet)
    (h : ¬(s.language ≠ "en" ∧ s.logo_url = none)) :
    backfillSetRow sets s = s := by
  unfold backfillSetRow
  rw [if_neg h]

theorem backfillSetRow_of_none (sets : List PokeSet) (s : PokeSet)
    (hcond : s.language ≠ "en" ∧ s.logo_url = none)
    (h : englishLogo sets s.tcgdex_id = none) :
    backfillSetRow sets s = s := by
  unfold backfillSetRow
  rw [if_pos hcond, h]

theorem backfillSetRow_of_some (sets : List PokeSet) (s : PokeSet) (u : String)
    (hcond : s.language ≠ "en" ∧ s.logo_url = none)
    (h : englishLogo sets s.tcgdex_id = some u) :
    backfillSetRow sets s = { s with logo_url := some u } := by
  unfold backfillSetRow
  rw [if_pos hcond, h]

theorem findEnglishSet_backfill (sets0 sets : List PokeSet) (tid : String) :
    findEnglishSet (sets.map (backfillSetRow sets0)) tid =
      findEnglishSet sets tid := by
  unfold findEnglishSet
  refine find?_map_fixed _ _ sets ?_ ?_
  · intro x
    rw [backfillSetRow_language, backfillSetRow_tcgdex]
  · intro x hx
    have hlang : x.language = "en" := by
      have hx' := hx
      simp at hx'
      exact hx'.1
    exact backfillSetRow_english sets0 x hlang

theorem englishLogo_backfill (sets : List PokeSet) (tid : String) :
    englishLogo (backfillLogos sets) tid = englishLogo sets tid := by
  unfold englishLogo backfillLogos
  rw [findEnglishSet_backfill]

theorem logoBackfilled_row (sets : List PokeSet) (s : PokeSet) :
    LogoBackfilled sets s (backfillSetRow sets s) := by
  refine ⟨?_, ?_, ?_⟩
  · intro e u hne hnone hfind hlogo
    have hel : englishLogo sets s.tcgdex_id = some u := by
      simp [englishLogo, hfind, hlogo]
    rw [backfillSetRow_of_some sets s u ⟨hne, hnone⟩ hel]
  · intro hfind
    have hel : englishLogo sets s.tcgdex_id = none := by
      simp [englishLogo, hfind]
    by_cases h : s.language ≠ "en" ∧ s.logo_url = none
    · rw [backfillSetRow_of_none sets s h hel]
    · rw [backfillSetRow_of_neg sets s h]
  · intro v hv
    refine backfillSetRow_of_neg sets s ?_
    intro hc
    rw [hc.2] at hv
    exact Option.noConfusion hv

theorem backfillSetRow_stable (sets : List PokeSet) (s : PokeSet) :
    backfillSetRow (backfillLogos sets) (backfillSetRow sets s) =
      backfillSetRow sets s := by
  by_cases hcond : s.language ≠ "en" ∧ s.logo_url = none
  · cases hlogo : englishLogo sets s.tcgdex_id with
    | none =>
      have h2 : englishLogo (backfillLogos sets) s.tcgdex_id = none := by
        rw [englishLogo_backfill]
        exact hlogo
      rw [backfillSetRow_of_none sets s hcond hlogo,
        backfillSetRow_of_none (backfillLogos sets) s hcond h2]
    | some u =>
      rw [backfillSetRow_of_some sets s u hcond hlogo]
      refine backfillSetRow_of_neg (backfillLogos sets) _ ?_
      intro hc
      exact Option.noConfusion hc.2
  · rw [backfillSetRow_of_neg sets s hcond,
      backfillSetRow_of_neg (backfillLogos sets) s hcond]

theorem backfillLogos_idem (sets : List PokeSet) :
    backfillLogos (backfillLogos sets) = backfillLogos sets := by
  conv_lhs => unfold backfillLogos
  rw [show backfillLogos sets = sets.map (backfillSetRow sets) from rfl,
    List.map_map]
  refine List.map_congr_left ?_
  intro s _
  exact backfillSetRow_stable sets s

end PokeData

namespace PokeData

theorem backfillCardRow_language (cards : List Card) (c : Card) :
    (backfillCardRow cards c).language = c.language := by
  unfold backfillCardRow
  split
  · split <;> rfl
  · rfl

theorem backfillCardRow_tcgdex (cards : List Card) (c : Card) :
    (backfillCardRow cards c).tcgdex_id = c.tcgdex_id := by
  unfold backfillCardRow
  split
  · split <;> rfl
  · rfl

theorem backfillCardRow_english (cards : List Card) (c : Card)
    (h : c.language = "en") : backfillCardRow cards c = c := by
  unfold backfillCardRow
  rw [if_neg]
  intro hc
  exact hc.1 h

theorem backfillCardRow_of_neg (cards : List Card) (c : Card)
    (h : ¬(c.language ≠ "en" ∧ c.image_url = none)) :
    backfillCardRow cards c = c := by
  unfold backfillCardRow
  rw [if_neg h]

theorem backfillCardRow_of_none (cards : List Card) (c : Card)
    (hcond : c.language ≠ "en" ∧ c.image_url = none)
    (h : englishImage cards c.tcgdex_id = none) :
    backfillCardRow cards c = c := by
  unfold backfillCardRow
  rw [if_pos hcond, h]

theorem backfillCardRow_of_some (cards : List Card) (c : Card) (u : String)
    (hcond : c.language ≠ "en" ∧ c.image_url = none)
    (h : englishImage cards c.tcgdex_id = some u) :
    backfillCardRow cards c = { c with image_url := some u } := by
  unfold backfillCardRow
  rw [if_pos hcond, h]

theorem findEnglishCard_backfill (cards0 cards : List Card) (tid : String) :
    findEnglishCard (cards.map (backfillCardRow cards0)) tid =
      findEnglishCard cards tid := by
  unfold findEnglishCard
  refine find?_map_fixed _ _ cards ?_ ?_
  · intro x
    rw [backfillCardRow_language, backfillCardRow_tcgdex]
  · intro x hx
    have hlang : x.language = "en" := by
      have hx' := hx
      simp at hx'
      exact hx'.1
    exact backfillCardRow_english cards0 x hlang

theorem englishImage_backfill (cards : List Card) (tid : String) :
    englishImage (backfillCardImages cards) tid = englishImage cards tid := by
  unfold englishImage backfillCardImages
  rw [findEnglishCard_backfill]

theorem imageBackfilled_row (cards : List Card) (c : Card) :
    ImageBackfilled cards c (backfillCardRow cards c) := by
  refine ⟨?_, ?_, ?_⟩
  · intro e u hne hnone hfind himg
    have hel : englishImage cards c.tcgdex_id = some u := by
      simp [englishImage, hfind, himg]
    rw [backfillCardRow_of_some cards c u ⟨hne, hnone⟩ hel]
  · intro hfind
    have hel : englishImage cards c.tcgdex_id = none := by
      simp [englishImage, hfind]
    by_cases h : c.language ≠ "en" ∧ c.image_url = none
    · rw [backfillCardRow_of_none cards c h hel]
    · rw [backfillCardRow_of_neg cards c h]
  · intro v hv
    refine backfillCardRow_of_neg cards c ?_
    intro hc
    rw [hc.2] at hv
    exact Option.noConfusion hv

theorem backfillCardRow_stable (cards : List Card) (c : Card) :
    backfillCardRow (backfillCardImages cards) (backfillCardRow cards c) =
      backfillCardRow cards c := by
  by_cases hcond : c.language ≠ "en" ∧ c.image_url = none
  · cases himg : englishImage cards c.tcgdex_id with
    | none =>
      have h2 : englishImage (backfillCardImages cards) c.tcgdex_id = none := by
        rw [englishImage_backfill]
        exact himg
      rw [backfillCardRow_of_none cards c hcond himg,
        backfillCardRow_of_none (backfillCardImages cards) c hcond h2]
    | some u =>
      rw [backfillCardRow_of_some cards c u hcond himg]
      refine backfillCardRow_of_neg (backfillCardImages cards) _ ?_
      intro hc
      exact Option.noConfusion hc.2
  · rw [backfillCardRow_of_neg cards c hcond,
      backfillCardRow_of_neg (backfillCardImages cards) c hcond]

theorem backfillCardImages_idem (cards : List Card) :
    backfillCardImages (backfillCardImages cards) = backfillCardImages cards := by
  conv_lhs => unfold backfillCardImages
  rw [show backfillCardImages cards = cards.map (backfillCardRow cards) from rfl,
    List.map_map]
  refine List.map_congr_left ?_
  intro c _
  exact backfillCardRow_stable cards c

/-- C5. Asset backfill correctness and idempotence: every non-English
Set (resp. Card) row with a null logo (resp. image) whose English
counterpart exists with a non-null reference receives that reference
verbatim; rows with no English counterpart keep their null field; rows
whose field is already non-null are untouched; and rerunning either
backfill changes nothing. -/
theorem asset_backfill (sets : List PokeSet) (cards : List Card) :
    List.Forall₂ (LogoBackfilled sets) sets (backfillLogos sets) ∧
    List.Forall₂ (ImageBackfilled cards) cards (backfillCardImages cards) ∧
    backfillLogos (backfillLogos sets) = backfillLogos sets ∧
    backfillCardImages (backfillCardImages cards) = backfillCardImages cards := by
  refine ⟨?_, ?_, backfillLogos_idem sets, backfillCardImages_idem cards⟩
  · rw [show backfillLogos sets = sets.map (backfillSetRow sets) from rfl,
      List.forall₂_map_right_iff]
    exact List.forall₂_same.mpr (fun s _ => logoBackfilled_row sets s)
  · rw [show backfillCardImages cards = cards.map (backfillCardRow cards) from rfl,
      List.forall₂_map_right_iff]
    exact List.forall₂_same.mpr (fun c _ => imageBackfilled_row cards c)

/-- C5, evaluated: a concrete store holding an English set with a logo, a
German set missing one, and a Japanese-exclusive set, plus the card
analogue. -/
theorem asset_backfill_witness :
    List.Forall₂ (LogoBackfilled [sampleSetEn, sampleSetDe, sampleSetJa])
      [sampleSetEn, sampleSetDe, sampleSetJa]
      (backfillLogos [sampleSetEn, sampleSetDe, sampleSetJa]) ∧
    List.Forall₂ (ImageBackfilled [sampleCardEn, sampleCard2])
      [sampleCardEn, sampleCard2]
      (backfillCardImages [sampleCardEn, sampleCard2]) ∧
    backfillLogos (backfillLogos [sampleSetEn, sampleSetDe, sampleSetJa]) =
      backfillLogos [sampleSetEn, sampleSetDe, sampleSetJa] ∧
    backfillCardImages (backfillCardImages [sampleCardEn, sampleCard2]) =
      backfillCardImages [sampleCardEn, sampleCard2] :=
  asset_backfill [sampleSetEn, sampleSetDe, sampleSetJa] [sampleCardEn, sampleCard2]

end PokeData

namespace PokeData

theorem callSchedule_head_ge (minDelay t : Nat) (rs : List Nat) :
    ∀ b ∈ (callSchedule minDelay (some t) rs).head?, t + minDelay ≤ b := by
  cases rs with
  | nil =>
    intro b hb
    simp [callSchedule] at hb
  | cons r rs' =>
    intro b hb
    simp [callSchedule] at hb
    omega

theorem callSchedule_chain (minDelay : Nat) (reqs : List Nat) :
    ∀ last, List.Chain' (fun a b => a + minDelay ≤ b)
      (callSchedule minDelay last reqs) := by
  induction reqs with
  | nil =>
    intro last
    simp [callSchedule]
  | cons r rs ih =>
    intro last
    cases last with
    | none =>
      refine List.chain'_cons'.mpr ⟨?_, ih (some r)⟩
      exact callSchedule_head_ge minDelay r rs
    | some l =>
      refine List.chain'_cons'.mpr ⟨?_, ih (some (max r (l + minDelay)))⟩
      exact callSchedule_head_ge minDelay (max r (l + minDelay)) rs

/-- C7. Rate-limit discipline: for every configured minimum delay, every
previous-call state and every sequence of caller request instants — i.e.
regardless of how callers crowd the client within one process — the
instants of consecutive outbound calls are at least the minimum delay
apart; the deployed delay is 0.3 s (300 ms), in the
hundreds-of-milliseconds range. -/
theorem rate_limit_min_gap (minDelay : Nat) (last : Option Nat)
    (reqs : List Nat) :
    List.Chain' (fun a b => a + minDelay ≤ b)
      (callSchedule minDelay last reqs) ∧
    deployedDelayMs = 300 ∧ 100 ≤ deployedDelayMs ∧ deployedDelayMs < 1000 := by
  exact ⟨callSchedule_chain minDelay reqs last, rfl, by decide, by decide⟩

/-- C7, evaluated: five bursty request instants against the deployed
300 ms delay. -/
theorem rate_limit_min_gap_witness :
    List.Chain' (fun a b => a + 300 ≤ b)
      (callSchedule 300 none [0, 0, 100, 901, 905]) ∧
    deployedDelayMs = 300 ∧ 100 ≤ deployedDelayMs ∧ deployedDelayMs < 1000 :=
  rate_limit_min_gap 300 none [0, 0, 100, 901, 905]

theorem cardKey_enrichRow (u : String → FetchResult) (lang : String)
    (c : Card) : cardKey (enrichRow u lang c) = cardKey c := by
  unfold enrichRow
  split
  · cases u c.tcgdex_id <;> rfl
  · rfl

theorem cardKey_pricingRow (pq : String → PricingResult) (now : Nat)
    (lang : String) (c : Card) : cardKey (pricingRow pq now lang c) = cardKey c := by
  unfold pricingRow
  split
  · cases pq c.tcgdex_id <;> rfl
  · rfl

theorem cardKey_backfillCardRow (cards : List Card) (c : Card) :
    cardKey (backfillCardRow cards c) = cardKey c := by
  unfold backfillCardRow
  split
  · split <;> rfl
  · rfl

theorem setKey_backfillSetRow (sets : List PokeSet) (s : PokeSet) :
    setKey (backfillSetRow sets s) = setKey s := by
  unfold backfillSetRow
  split
  · split <;> rfl
  · rfl

theorem uniqueCards_map (f : Card → Card)
    (hf : ∀ c, cardKey (f c) = cardKey c) (s : List Card)
    (h : UniqueCards s) : UniqueCards (s.map f) := by
  unfold UniqueCards at *
  rw [List.map_map]
  have heq : s.map (cardKey ∘ f) = s.map cardKey :=
    List.map_congr_left (fun c _ => hf c)
  rw [heq]
  exact h

theorem uniqueSets_map (f : PokeSet → PokeSet)
    (hf : ∀ s, setKey (f s) = setKey s) (l : List PokeSet)
    (h : UniqueSets l) : UniqueSets (l.map f) := by
  unfold UniqueSets at *
  rw [List.map_map]
  have heq : l.map (setKey ∘ f) = l.map setKey :=
    List.map_congr_left (fun s _ => hf s)
  rw [heq]
  exact h

theorem uniqueCards_applyCardOp (op : CardOp) (s : List Card)
    (h : UniqueCards s) : UniqueCards (applyCardOp op s) := by
  cases op with
  | enrich u lang =>
    show UniqueCards (enrichLanguage u lang s).1
    rw [enrichLanguage_fst]
    exact uniqueCards_map _ (cardKey_enrichRow u lang) s h
  | price pq now lang =>
    show UniqueCards (enrichPricing pq now lang s).1
    rw [enrichPricing_fst]
    exact uniqueCards_map _ (cardKey_pricingRow pq now lang) s h
  | backfillImages =>
    show UniqueCards (s.map (backfillCardRow s))
    exact uniqueCards_map _ (cardKey_backfillCardRow s) s h

theorem uniqueCards_applyCardOps (ops : List CardOp) (s : List Card)
    (h : UniqueCards s) : UniqueCards (applyCardOps ops s) := by
  induction ops generalizing s with
  | nil => exact h
  | cons op ops ih => exact ih _ (uniqueCards_applyCardOp op s h)

theorem uniqueSets_applySetOps (ops : List SetOp) (l : List PokeSet)
    (h : UniqueSets l) : UniqueSets (applySetOps ops l) := by
  induction ops generalizing l with
  | nil => exact h
  | cons op ops ih =>
    refine ih _ ?_
    cases op with
    | backfill =>
      show UniqueSets (l.map (backfillSetRow l))
      exact uniqueSets_map _ (setKey_backfillSetRow l) l h

/-- C8. Identity uniqueness invariant: starting from a store in which no
two Card rows and no two Set rows share (tcgdex_id, language) — the
`UNIQUE(tcgdex_id, language)` constraints of the schema — any sequence of
core operations (enrichment, pricing, asset backfill, all in-place row
updates) leaves both uniqueness properties intact. -/
theorem identity_uniqueness (ops : List CardOp) (sops : List SetOp)
    (cards : List Card) (sets : List PokeSet)
    (hc : UniqueCards cards) (hs : UniqueSets sets) :
    UniqueCards (applyCardOps ops cards) ∧ UniqueSets (applySetOps sops sets) :=
  ⟨uniqueCards_applyCardOps ops cards hc, uniqueSets_applySetOps sops sets hs⟩

/-- C8, evaluated: a concrete unique store driven through an enrichment
run, a pricing run and both backfills. -/
theorem identity_uniqueness_witness :
    UniqueCards (applyCardOps
      [CardOp.enrich upstreamFoundSample "de",
       CardOp.price pricingFoundSample 42 "de",
       CardOp.backfillImages]
      [sampleCard, sampleCard2, sampleCardEn]) ∧
    UniqueSets (applySetOps [SetOp.backfill, SetOp.backfill]
      [sampleSetEn, sampleSetDe, sampleSetJa]) :=
  identity_uniqueness
    [CardOp.enrich upstreamFoundSample "de",
     CardOp.price pricingFoundSample 42 "de",
     CardOp.backfillImages]
    [SetOp.backfill, SetOp.backfill]
    [sampleCard, sampleCard2, sampleCardEn]
    [sampleSetEn, sampleSetDe, sampleSetJa]
    (by unfold UniqueCards; decide) (by unfold UniqueSets; decide)

end PokeData

namespace Frontend

/-- C9. Frontend list operations never propagate errors while the detail
lookup rethrows: on any client error `getSets` and `getSetCards` return
the empty list, and `getSetDetails` returns that same error; on success
all three return the transformed payload, so a detail-lookup failure is
observable only through `getSetDetails`. -/
theorem tcgdex_api_error_handling (e : ApiError) (rawSets : List RawSet)
    (rawCards : List RawCard) (rawSet : RawSet) :
    getSets (Except.error e) = [] ∧
    getSetCards (Except.error e) = [] ∧
    getSetDetails (Except.error e) = Except.error e ∧
    getSets (Except.ok rawSets) = rawSets.map toTCGSet ∧
    getSetCards (Except.ok rawCards) = rawCards.map toTCGCard ∧
    getSetDetails (Except.ok rawSet) = Except.ok (toTCGSet rawSet) :=
  ⟨rfl, rfl, rfl, rfl, rfl, rfl⟩

/-- A concrete client error, as produced by `handleResponse` on an HTTP
500. -/
def sampleError : ApiError := { message := "Internal Server Error", status := 500 }

/-- A concrete raw set record. -/
def sampleRawSet : RawSet :=
  { tcgdex_id := "base1", name := "Base Set",
    logo_url := none, symbol_url := none,
    release_date := some "1999-01-09", total_cards := some 102,
    series_name := some "Base" }

/-- C9, evaluated at a concrete error and concrete payloads. -/
theorem tcgdex_api_error_handling_witness :
    getSets (Except.error sampleError) = [] ∧
    getSetCards (Except.error sampleError) = [] ∧
    getSetDetails (Except.error sampleError) = Except.error sampleError ∧
    getSets (Except.ok [sampleRawSet]) = [sampleRawSet].map toTCGSet ∧
    getSetCards (Except.ok []) = List.map toTCGCard [] ∧
    getSetDetails (Except.ok sampleRawSet) = Except.ok (toTCGSet sampleRawSet) :=
  tcgdex_api_error_handling sampleError [sampleRawSet] [] sampleRawSet

end Frontend

namespace Coordinator

/-- C10, evaluated at the failing input: with
`enrich_cards_from_tcgdex.py` exiting 1 on the `en` iteration while `tee`
exits 0, the script's `DATA_EXIT_CODE` is 0 (it captures the pipeline's
last command, `tee`), so the pricing step still runs for `en` — refuting
the claim that pricing runs only when the data enrichment exited 0 —
while the loop does continue through all 15 languages. -/
theorem coordinator_gates_on_tee_status :
    (failingDataStep "en").pythonExit = 1 ∧
    (processLang failingDataStep "en").dataExitCode = 0 ∧
    (processLang failingDataStep "en").pricingRan = true ∧
    (enrichAllLanguages failingDataStep).map (fun o => o.pricingRan) =
      List.replicate 15 true := by
  refine ⟨rfl, rfl, rfl, ?_⟩
  decide

end Coordinator
